import Mathlib

/-!
# Verification of the toslib archive and model decoders

This file gives a shallow embedding, in Lean 4, of the core of the
`toslib` repository: the IPF archive reader (`src/ipf.rs`), its stream
cipher, and the XAC model decoder and mesh assembler (`src/xac.rs`).
Machine integers are modelled as `Nat` with explicit reduction modulo
`2 ^ 32` where the Rust code performs 32-bit arithmetic; IEEE-754
`f32` values are carried as their 32-bit little-endian bit patterns,
so that `-x` is the sign-bit flip the Rust negation performs.
Fallible reads return `Option` or `Except`.
-/

namespace Toslib

/-- 2 ^ 32, the modulus of Rust `u32` arithmetic. -/
def U32 : Nat := 4294967296

/-- Little-endian decoding of four bytes into a `u32` value. -/
def leU32 (b0 b1 b2 b3 : Nat) : Nat :=
  b0 % 256 + 256 * (b1 % 256) + 65536 * (b2 % 256) + 16777216 * (b3 % 256)

/-- Little-endian decoding of two bytes into a `u16` value. -/
def leU16 (b0 b1 : Nat) : Nat := b0 % 256 + 256 * (b1 % 256)

/-- The `width`-byte slice of `D` starting at byte offset `off`. -/
def slice (D : List Nat) (off width : Nat) : List Nat := (D.drop off).take width

/-! ## The IPF stream cipher (`src/ipf.rs`)

Constants `CRC32_TABLE` and `PASSWORD` are transcribed from `src/ipf.rs`.
-/

/-- CRC32_TABLE of `src/ipf.rs`. -/
def CRC32_TABLE : List Nat := [
  0x00000000, 0x77073096, 0xee0e612c, 0x990951ba, 0x076dc419, 0x706af48f, 0xe963a535, 0x9e6495a3,
  0x0edb8832, 0x79dcb8a4, 0xe0d5e91e, 0x97d2d988, 0x09b64c2b, 0x7eb17cbd, 0xe7b82d07, 0x90bf1d91,
  0x1db71064, 0x6ab020f2, 0xf3b97148, 0x84be41de, 0x1adad47d, 0x6ddde4eb, 0xf4d4b551, 0x83d385c7,
  0x136c9856, 0x646ba8c0, 0xfd62f97a, 0x8a65c9ec, 0x14015c4f, 0x63066cd9, 0xfa0f3d63, 0x8d080df5,
  0x3b6e20c8, 0x4c69105e, 0xd56041e4, 0xa2677172, 0x3c03e4d1, 0x4b04d447, 0xd20d85fd, 0xa50ab56b,
  0x35b5a8fa, 0x42b2986c, 0xdbbbc9d6, 0xacbcf940, 0x32d86ce3, 0x45df5c75, 0xdcd60dcf, 0xabd13d59,
  0x26d930ac, 0x51de003a, 0xc8d75180, 0xbfd06116, 0x21b4f4b5, 0x56b3c423, 0xcfba9599, 0xb8bda50f,
  0x2802b89e, 0x5f058808, 0xc60cd9b2, 0xb10be924, 0x2f6f7c87, 0x58684c11, 0xc1611dab, 0xb6662d3d,
  0x76dc4190, 0x01db7106, 0x98d220bc, 0xefd5102a, 0x71b18589, 0x06b6b51f, 0x9fbfe4a5, 0xe8b8d433,
  0x7807c9a2, 0x0f00f934, 0x9609a88e, 0xe10e9818, 0x7f6a0dbb, 0x086d3d2d, 0x91646c97, 0xe6635c01,
  0x6b6b51f4, 0x1c6c6162, 0x856530d8, 0xf262004e, 0x6c0695ed, 0x1b01a57b, 0x8208f4c1, 0xf50fc457,
  0x65b0d9c6, 0x12b7e950, 0x8bbeb8ea, 0xfcb9887c, 0x62dd1ddf, 0x15da2d49, 0x8cd37cf3, 0xfbd44c65,
  0x4db26158, 0x3ab551ce, 0xa3bc0074, 0xd4bb30e2, 0x4adfa541, 0x3dd895d7, 0xa4d1c46d, 0xd3d6f4fb,
  0x4369e96a, 0x346ed9fc, 0xad678846, 0xda60b8d0, 0x44042d73, 0x33031de5, 0xaa0a4c5f, 0xdd0d7cc9,
  0x5005713c, 0x270241aa, 0xbe0b1010, 0xc90c2086, 0x5768b525, 0x206f85b3, 0xb966d409, 0xce61e49f,
  0x5edef90e, 0x29d9c998, 0xb0d09822, 0xc7d7a8b4, 0x59b33d17, 0x2eb40d81, 0xb7bd5c3b, 0xc0ba6cad,
  0xedb88320, 0x9abfb3b6, 0x03b6e20c, 0x74b1d29a, 0xead54739, 0x9dd277af, 0x04db2615, 0x73dc1683,
  0xe3630b12, 0x94643b84, 0x0d6d6a3e, 0x7a6a5aa8, 0xe40ecf0b, 0x9309ff9d, 0x0a00ae27, 0x7d079eb1,
  0xf00f9344, 0x8708a3d2, 0x1e01f268, 0x6906c2fe, 0xf762575d, 0x806567cb, 0x196c3671, 0x6e6b06e7,
  0xfed41b76, 0x89d32be0, 0x10da7a5a, 0x67dd4acc, 0xf9b9df6f, 0x8ebeeff9, 0x17b7be43, 0x60b08ed5,
  0xd6d6a3e8, 0xa1d1937e, 0x38d8c2c4, 0x4fdff252, 0xd1bb67f1, 0xa6bc5767, 0x3fb506dd, 0x48b2364b,
  0xd80d2bda, 0xaf0a1b4c, 0x36034af6, 0x41047a60, 0xdf60efc3, 0xa867df55, 0x316e8eef, 0x4669be79,
  0xcb61b38c, 0xbc66831a, 0x256fd2a0, 0x5268e236, 0xcc0c7795, 0xbb0b4703, 0x220216b9, 0x5505262f,
  0xc5ba3bbe, 0xb2bd0b28, 0x2bb45a92, 0x5cb36a04, 0xc2d7ffa7, 0xb5d0cf31, 0x2cd99e8b, 0x5bdeae1d,
  0x9b64c2b0, 0xec63f226, 0x756aa39c, 0x026d930a, 0x9c0906a9, 0xeb0e363f, 0x72076785, 0x05005713,
  0x95bf4a82, 0xe2b87a14, 0x7bb12bae, 0x0cb61b38, 0x92d28e9b, 0xe5d5be0d, 0x7cdcefb7, 0x0bdbdf21,
  0x86d3d2d4, 0xf1d4e242, 0x68ddb3f8, 0x1fda836e, 0x81be16cd, 0xf6b9265b, 0x6fb077e1, 0x18b74777,
  0x88085ae6, 0xff0f6a70, 0x66063bca, 0x11010b5c, 0x8f659eff, 0xf862ae69, 0x616bffd3, 0x166ccf45,
  0xa00ae278, 0xd70dd2ee, 0x4e048354, 0x3903b3c2, 0xa7672661, 0xd06016f7, 0x4969474d, 0x3e6e77db,
  0xaed16a4a, 0xd9d65adc, 0x40df0b66, 0x37d83bf0, 0xa9bcae53, 0xdebb9ec5, 0x47b2cf7f, 0x30b5ffe9,
  0xbdbdf21c, 0xcabac28a, 0x53b39330, 0x24b4a3a6, 0xbad03605, 0xcdd70693, 0x54de5729, 0x23d967bf,
  0xb3667a2e, 0xc4614ab8, 0x5d681b02, 0x2a6f2b94, 0xb40bbe37, 0xc30c8ea1, 0x5a05df1b, 0x2d02ef8d]

/-- PASSWORD of `src/ipf.rs`: the fixed 20-byte cipher password. -/
def PASSWORD : List Nat := [0x6F, 0x66, 0x4F, 0x31, 0x61, 0x30, 0x75, 0x65, 0x58, 0x41, 0x3F, 0x20, 0x5B, 0xFF, 0x73, 0x20, 0x68, 0x20, 0x25, 0x3F]

/-- IPFFileTable::compute_crc32: `CRC32_TABLE[((crc ^ b) & 0xFF) as usize] ^ (crc >> 8)`. -/
def compute_crc32 (crc b : Nat) : Nat :=
  CRC32_TABLE.getD ((crc ^^^ b) &&& 0xFF) 0 ^^^ (crc >>> 8)

/-- IPFFileTable::extract_byte: `(value >> (byte_index * 8)) as u8`. -/
def extract_byte (value byte_index : Nat) : Nat :=
  (value >>> (byte_index * 8)) % 256

/-- The three 32-bit key registers of the cipher. -/
structure Keys where
  k0 : Nat
  k1 : Nat
  k2 : Nat
deriving Repr, DecidableEq

/-- IPFFileTable::keys_update. `keys[1]` is computed with wrapping
32-bit arithmetic (`wrapping_mul`, and the `+ 1` reduced mod `2 ^ 32`). -/
def keys_update (k : Keys) (b : Nat) : Keys :=
  let k0 := compute_crc32 k.k0 b
  let k1 := (0x8088405 * ((k0 % 256 + k.k1) % U32) % U32 + 1) % U32
  let k2 := compute_crc32 k.k2 (extract_byte k1 3)
  ⟨k0, k1, k2⟩

/-- IPFFileTable::keys_generate: fold the password through `keys_update`
starting from the three fixed constants. -/
def keys_generate : Keys :=
  PASSWORD.foldl keys_update ⟨0x12345678, 0x23456789, 0x34567890⟩

/-- The loop body of IPFFileTable::decrypt: iteration `i` touches index
`i * 2` (when in range), XORs it with the keystream byte derived from
`keys[2]`, and feeds the now-plaintext byte back into `keys_update`.
`n` counts the remaining iterations. -/
def decryptGo (keys : Keys) (buf : List Nat) (i n : Nat) : List Nat :=
  match n with
  | 0 => buf
  | n + 1 =>
    let idx := i * 2
    if idx < buf.length then
      let v := (keys.k2 &&& 0xFFFD) ||| 2
      let b := buf.getD idx 0 ^^^ ((v * (v ^^^ 1) % U32) >>> 8) % 256
      decryptGo (keys_update keys b) (buf.set idx b) (i + 1) n
    else
      decryptGo keys buf (i + 1) n

/-- IPFFileTable::decrypt: empty buffers are returned unchanged, otherwise
the loop runs for `(len - 1) / 2 + 1` iterations starting at `i = 0`. -/
def decrypt (buffer : List Nat) : List Nat :=
  if buffer.length = 0 then buffer
  else decryptGo keys_generate buffer 0 ((buffer.length - 1) / 2 + 1)

/-! Specification-side rendering of the cipher, following the words of the
spec: iterate `i = 0..ceil(N/2)`, only touch byte index `i*2`, XOR it with
the high byte of `v * (v xor 1)` where `v = (key2 & 0xFFFD) | 2`, then
update the keys with the now-plaintext byte; odd indices are untouched. -/

/-- Keystream byte drawn from the current keys, as the spec words it. -/
def keystreamByte (keys : Keys) : Nat :=
  let v := (keys.k2 &&& 0xFFFD) ||| 2
  ((v * (v ^^^ 1) % U32) >>> 8) % 256

/-- Spec-side decryption: process the buffer two bytes at a time, XORing
the first byte of each pair and passing the second through unchanged. -/
def decryptSpecGo (keys : Keys) : List Nat → List Nat
  | [] => []
  | [b] => [b ^^^ keystreamByte keys]
  | b :: c :: rest =>
    let b' := b ^^^ keystreamByte keys
    b' :: c :: decryptSpecGo (keys_update keys b') rest

/-- Spec-side decryption with the password-derived initial keys. -/
def decryptSpec (buffer : List Nat) : List Nat :=
  decryptSpecGo keys_generate buffer

lemma getD_append_len (pre rest : List Nat) (j : Nat) (h : j = pre.length) :
    (pre ++ rest).getD j 0 = rest.getD 0 0 := by
  subst h
  rw [List.getD_append_right _ _ _ _ (le_refl _)]
  simp

lemma set_append_len (pre rest : List Nat) (j x : Nat) (h : j = pre.length) :
    (pre ++ rest).set j x = pre ++ rest.set 0 x := by
  subst h
  rw [List.set_append_right] <;> simp

/-- The decrypt loop, run over `pre ++ rest` with the first `2 * i` bytes
already processed, only rewrites `rest` and does so exactly as the
spec-side pairwise recursion. -/
lemma decryptGo_eq_specGo (n : Nat) : ∀ (rest pre : List Nat) (keys : Keys) (i : Nat),
    pre.length = 2 * i → (rest.length + 1) / 2 = n →
    decryptGo keys (pre ++ rest) i n = pre ++ decryptSpecGo keys rest := by
  induction n with
  | zero =>
    intro rest pre keys i hpre hn
    have hr : rest = [] := by
      cases rest with
      | nil => rfl
      | cons a l => simp at hn; omega
    subst hr
    simp [decryptGo, decryptSpecGo]
  | succ n ih =>
    intro rest pre keys i hpre hn
    match rest with
    | [] => simp at hn
    | [b] =>
      have hn0 : n = 0 := by simpa using hn.symm
      subst hn0
      have hidx : i * 2 < (pre ++ [b]).length := by
        simp [hpre]; omega
      have hg : (pre ++ [b]).getD (i * 2) 0 = b := by
        rw [getD_append_len _ _ _ (by omega)]; rfl
      have hs : ∀ x, (pre ++ [b]).set (i * 2) x = pre ++ [x] := by
        intro x; rw [set_append_len _ _ _ _ (by omega)]; rfl
      simp only [decryptGo, hidx, if_pos, hg, hs, keystreamByte]
      rfl
    | b :: c :: rest' =>
      have hidx : i * 2 < (pre ++ b :: c :: rest').length := by
        simp [hpre]; omega
      have hg : (pre ++ b :: c :: rest').getD (i * 2) 0 = b := by
        rw [getD_append_len _ _ _ (by omega)]; rfl
      have hs : ∀ x, (pre ++ b :: c :: rest').set (i * 2) x = (pre ++ [x, c]) ++ rest' := by
        intro x; rw [set_append_len _ _ _ _ (by omega)]; simp
      simp only [decryptGo, hidx, if_pos, hg, hs]
      have hIH := ih rest' (pre ++ [b ^^^ keystreamByte keys, c])
        (keys_update keys (b ^^^ keystreamByte keys)) (i + 1)
        (by simp [hpre]; omega) (by simp at hn ⊢; omega)
      simp only [keystreamByte] at hIH
      rw [hIH]
      simp [decryptSpecGo, keystreamByte]

lemma decryptSpecGo_odd_bounded (n : Nat) : ∀ (keys : Keys) (buf : List Nat),
    buf.length ≤ n → ∀ i, i % 2 = 1 → (decryptSpecGo keys buf).get? i = buf.get? i := by
  induction n with
  | zero =>
    intro keys buf hlen i _
    have : buf = [] := List.eq_nil_of_length_eq_zero (by omega)
    subst this; rfl
  | succ n ih =>
    intro keys buf hlen i hi
    match buf with
    | [] => rfl
    | [b] =>
      match i, (show 1 ≤ i by omega) with
      | (j + 1), _ => rfl
    | b :: c :: rest =>
      match i, hi with
      | 1, _ => rfl
      | (j + 2), hj =>
        show (decryptSpecGo (keys_update keys _) rest).get? j = rest.get? j
        exact ih _ rest (by simp at hlen; omega) j (by omega)

lemma decryptSpecGo_odd (keys : Keys) (buf : List Nat) :
    ∀ i, i % 2 = 1 → (decryptSpecGo keys buf).get? i = buf.get? i :=
  decryptSpecGo_odd_bounded buf.length keys buf (le_refl _)

/-- C1: `IPFFileTable::decrypt` (keyed by the fixed 20-byte password with
registers initialized to the fixed constants) transforms every buffer
exactly as the spec describes — for `i = 0..ceil(N/2)` it XORs the byte at
index `i*2` with the keystream byte derived from `key2` and feeds the
plaintext byte back through `keys_update`, and bytes at odd indices are
never modified. -/
theorem decrypt_matches_spec (buffer : List Nat) :
    decrypt buffer = decryptSpec buffer ∧
    ∀ i, i % 2 = 1 → (decrypt buffer).get? i = buffer.get? i := by
  have hmain : decrypt buffer = decryptSpec buffer := by
    unfold decrypt decryptSpec
    by_cases h : buffer.length = 0
    · rw [if_pos h]
      have : buffer = [] := List.eq_nil_of_length_eq_zero h
      subst this; rfl
    · rw [if_neg h]
      have := decryptGo_eq_specGo ((buffer.length - 1) / 2 + 1) buffer [] keys_generate 0
        (by simp) (by omega)
      simpa using this
  refine ⟨hmain, fun i hi => ?_⟩
  rw [hmain]
  exact decryptSpecGo_odd keys_generate buffer i hi

/-- Witness for C1 at a concrete buffer and odd index. -/
theorem decrypt_matches_spec_witness :
    decrypt [1, 2, 3, 4, 5] = decryptSpec [1, 2, 3, 4, 5] ∧
    (decrypt [1, 2, 3, 4, 5]).get? 3 = [1, 2, 3, 4, 5].get? 3 :=
  ⟨(decrypt_matches_spec [1, 2, 3, 4, 5]).1,
   (decrypt_matches_spec [1, 2, 3, 4, 5]).2 3 (by decide)⟩

/-! ## The IPF archive reader (`src/ipf.rs`)

The `BinaryReader` of `src/tosreader.rs` is modelled as a state carrying
the underlying bytes, the current position, and — for reasoning about
which bytes an operation touches — a log of every byte position read.
Each primitive read either consumes its bytes or fails like the
underlying `io::Result`. -/

/-- MAGIC_NUMBER of `src/ipf.rs`. -/
def MAGIC_NUMBER : Nat := 0x6054B50

/-- Errors of the IPF reader: end-of-stream I/O failure, or the
InvalidData error raised by `read_footer` on a magic mismatch. -/
inductive IPFError where
  | eof : IPFError
  | badMagic (expected got : Nat) : IPFError
deriving Repr, DecidableEq

/-- IPFFooter of `src/ipf.rs` (the parsed trailer fields). -/
structure IPFFooter where
  file_count : Nat
  file_table_pointer : Nat
  footer_pointer : Nat
  magic : Nat
  version_to_patch : Nat
  new_version : Nat
deriving Repr, DecidableEq

/-- IPFFileTable of `src/ipf.rs` (one entry of the archive table). -/
structure IPFFileTable where
  directory_name_length : Nat
  crc32 : Nat
  file_size_compressed : Nat
  file_size_uncompressed : Nat
  file_pointer : Nat
  container_name_length : Nat
  container_name : List Nat
  directory_name : List Nat
deriving Repr, DecidableEq

/-- IPFFile of `src/ipf.rs`. -/
structure IPFFile where
  footer : IPFFooter
  file_table : List IPFFileTable
deriving Repr, DecidableEq

/-- The reader state: bytes, cursor, and the log of byte positions read. -/
structure IRState where
  data : List Nat
  pos : Nat
  log : List Nat
deriving Repr, DecidableEq

/-- The reader computation type: state in, result and state out. The
state is returned even on error, so the read log survives failures. -/
def IRead (α : Type) : Type := IRState → Except IPFError α × IRState

instance : Monad IRead where
  pure a := fun s => (.ok a, s)
  bind m f := fun s =>
    match m s with
    | (.ok a, s') => f a s'
    | (.error e, s') => (.error e, s')

/-- Failure that leaves the state untouched. -/
def ifail {α : Type} (e : IPFError) : IRead α := fun s => (.error e, s)

/-- BinaryReader::read_u16: two bytes, little-endian. -/
def ireadU16 : IRead Nat := fun s =>
  if s.pos + 2 ≤ s.data.length then
    (.ok (leU16 (s.data.getD s.pos 0) (s.data.getD (s.pos + 1) 0)),
     ⟨s.data, s.pos + 2, s.log ++ [s.pos, s.pos + 1]⟩)
  else (.error .eof, s)

/-- BinaryReader::read_u32: four bytes, little-endian. -/
def ireadU32 : IRead Nat := fun s =>
  if s.pos + 4 ≤ s.data.length then
    (.ok (leU32 (s.data.getD s.pos 0) (s.data.getD (s.pos + 1) 0)
       (s.data.getD (s.pos + 2) 0) (s.data.getD (s.pos + 3) 0)),
     ⟨s.data, s.pos + 4, s.log ++ [s.pos, s.pos + 1, s.pos + 2, s.pos + 3]⟩)
  else (.error .eof, s)

/-- BinaryReader::read_bytes_u16: `n` raw bytes. -/
def ireadBytesN (n : Nat) : IRead (List Nat) := fun s =>
  if s.pos + n ≤ s.data.length then
    (.ok ((slice s.data s.pos n).map (· % 256)),
     ⟨s.data, s.pos + n, s.log ++ (List.range n).map (s.pos + ·)⟩)
  else (.error .eof, s)

/-- The `reader.seek(SeekFrom::End(HEADER_LOCATION))` of `read_footer`,
with `HEADER_LOCATION = -24`; seeking before the start of the stream is
an I/O error. -/
def iseekEnd24 : IRead Unit := fun s =>
  if 24 ≤ s.data.length then (.ok (), ⟨s.data, s.data.length - 24, s.log⟩)
  else (.error .eof, s)

/-- The `reader.seek(SeekFrom::Start(p))` of `read_file_table`. -/
def iseekStart (p : Nat) : IRead Unit := fun s => (.ok (), ⟨s.data, p, s.log⟩)

/-- IPFFile::read_footer: seek to 24 bytes before the end, read the seven
trailer fields, and reject a wrong magic with InvalidData. -/
def read_footer : IRead IPFFooter := do
  iseekEnd24
  let file_count ← ireadU16
  let file_table_pointer ← ireadU32
  let _padding ← ireadU16
  let footer_pointer ← ireadU32
  let magic ← ireadU32
  let version_to_patch ← ireadU32
  let new_version ← ireadU32
  if magic ≠ MAGIC_NUMBER then
    ifail (.badMagic MAGIC_NUMBER magic)
  else
    pure ⟨file_count, file_table_pointer, footer_pointer, magic,
      version_to_patch, new_version⟩

/-- IPFFile::read_file_entry. -/
def read_file_entry : IRead IPFFileTable := do
  let directory_name_length ← ireadU16
  let crc32 ← ireadU32
  let file_size_compressed ← ireadU32
  let file_size_uncompressed ← ireadU32
  let file_pointer ← ireadU32
  let container_name_length ← ireadU16
  let container_name ← ireadBytesN container_name_length
  let directory_name ← ireadBytesN directory_name_length
  pure ⟨directory_name_length, crc32, file_size_compressed,
    file_size_uncompressed, file_pointer, container_name_length,
    container_name, directory_name⟩

/-- The entry loop of IPFFile::read_file_table. -/
def read_entries : Nat → IRead (List IPFFileTable)
  | 0 => pure []
  | n + 1 => do
    let e ← read_file_entry
    let rest ← read_entries n
    pure (e :: rest)

/-- IPFFile::read_file_table: seek to the table and read `file_count`
entries in order. -/
def read_file_table (table_offset file_count : Nat) : IRead (List IPFFileTable) := do
  iseekStart table_offset
  read_entries file_count

/-- IPFFile::load_from_reader: footer first, then the file table. -/
def ipfLoadFromReader : IRead IPFFile := do
  let footer ← read_footer
  let file_table ← read_file_table footer.file_table_pointer footer.file_count
  pure ⟨footer, file_table⟩

/-- The magic field of the trailer: the little-endian `u32` stored 12
bytes before the end of the stream. -/
def footerMagic (d : List Nat) : Nat :=
  leU32 (d.getD (d.length - 12) 0) (d.getD (d.length - 11) 0)
    (d.getD (d.length - 10) 0) (d.getD (d.length - 9) 0)

lemma iread_bind_ok {α β : Type} {m : IRead α} {f : α → IRead β} {s s' : IRState}
    {a : α} (h : m s = (.ok a, s')) : (m >>= f) s = f a s' := by
  show (match m s with
    | (.ok a, s') => f a s'
    | (.error e, s') => (.error e, s')) = f a s'
  rw [h]

lemma iread_bind_err {α β : Type} {m : IRead α} {f : α → IRead β} {s s' : IRState}
    {e : IPFError} (h : m s = (.error e, s')) : (m >>= f) s = (.error e, s') := by
  show (match m s with
    | (.ok a, s') => f a s'
    | (.error e, s') => (.error e, s')) = (.error e, s')
  rw [h]

lemma iseekEnd24_run {d : List Nat} {p : Nat} {log : List Nat} (h : 24 ≤ d.length) :
    iseekEnd24 ⟨d, p, log⟩ = (.ok (), ⟨d, d.length - 24, log⟩) := by
  unfold iseekEnd24; rw [if_pos h]

lemma ireadU16_run {d : List Nat} {p : Nat} {log : List Nat} (h : p + 2 ≤ d.length) :
    ireadU16 ⟨d, p, log⟩ =
      (.ok (leU16 (d.getD p 0) (d.getD (p + 1) 0)), ⟨d, p + 2, log ++ [p, p + 1]⟩) := by
  unfold ireadU16; rw [if_pos h]

lemma ireadU32_run {d : List Nat} {p : Nat} {log : List Nat} (h : p + 4 ≤ d.length) :
    ireadU32 ⟨d, p, log⟩ =
      (.ok (leU32 (d.getD p 0) (d.getD (p + 1) 0) (d.getD (p + 2) 0) (d.getD (p + 3) 0)),
       ⟨d, p + 4, log ++ [p, p + 1, p + 2, p + 3]⟩) := by
  unfold ireadU32; rw [if_pos h]

/-- C9: opening an archive whose trailer magic differs from `MAGIC_NUMBER`
fails with the bad-magic error, and every byte position read during the
whole open lies inside the 24-byte trailer — in particular the entry
table is never read. -/
theorem ipf_open_bad_magic (d : List Nat) (h24 : 24 ≤ d.length)
    (hm : footerMagic d ≠ MAGIC_NUMBER) :
    (ipfLoadFromReader ⟨d, 0, []⟩).1 =
      .error (.badMagic MAGIC_NUMBER (footerMagic d)) ∧
    ∀ p ∈ (ipfLoadFromReader ⟨d, 0, []⟩).2.log,
      d.length - 24 ≤ p ∧ p < d.length := by
  obtain ⟨m, hL⟩ : ∃ m, d.length = m + 24 := ⟨d.length - 24, by omega⟩
  have hfm : footerMagic d =
      leU32 (d.getD (m + 12) 0) (d.getD (m + 12 + 1) 0)
        (d.getD (m + 12 + 2) 0) (d.getD (m + 12 + 3) 0) := by
    unfold footerMagic
    rw [hL, show m + 24 - 12 = m + 12 from by omega,
      show m + 24 - 11 = m + 12 + 1 from by omega,
      show m + 24 - 10 = m + 12 + 2 from by omega,
      show m + 24 - 9 = m + 12 + 3 from by omega]
  have hfoot : read_footer ⟨d, 0, []⟩ =
      (.error (.badMagic MAGIC_NUMBER (footerMagic d)),
       ⟨d, m + 24, [] ++ [m, m + 1] ++ [m + 2, m + 2 + 1, m + 2 + 2, m + 2 + 3]
         ++ [m + 6, m + 6 + 1] ++ [m + 8, m + 8 + 1, m + 8 + 2, m + 8 + 3]
         ++ [m + 12, m + 12 + 1, m + 12 + 2, m + 12 + 3]
         ++ [m + 16, m + 16 + 1, m + 16 + 2, m + 16 + 3]
         ++ [m + 20, m + 20 + 1, m + 20 + 2, m + 20 + 3]⟩) := by
    unfold read_footer
    rw [iread_bind_ok (iseekEnd24_run h24)]
    rw [show d.length - 24 = m from by omega]
    rw [iread_bind_ok (ireadU16_run (by omega))]
    rw [iread_bind_ok (ireadU32_run (by omega))]
    rw [show m + 2 + 4 = m + 6 from by omega]
    rw [iread_bind_ok (ireadU16_run (by omega))]
    rw [show m + 6 + 2 = m + 8 from by omega]
    rw [iread_bind_ok (ireadU32_run (by omega))]
    rw [show m + 8 + 4 = m + 12 from by omega]
    rw [iread_bind_ok (ireadU32_run (by omega))]
    rw [show m + 12 + 4 = m + 16 from by omega]
    rw [iread_bind_ok (ireadU32_run (by omega))]
    rw [show m + 16 + 4 = m + 20 from by omega]
    rw [iread_bind_ok (ireadU32_run (by omega))]
    rw [show m + 20 + 4 = m + 24 from by omega]
    rw [if_pos (by rw [hfm] at hm; exact hm)]
    rw [hfm]
    rfl
  have hrun : ipfLoadFromReader ⟨d, 0, []⟩ =
      (.error (.badMagic MAGIC_NUMBER (footerMagic d)),
       ⟨d, m + 24, [] ++ [m, m + 1] ++ [m + 2, m + 2 + 1, m + 2 + 2, m + 2 + 3]
         ++ [m + 6, m + 6 + 1] ++ [m + 8, m + 8 + 1, m + 8 + 2, m + 8 + 3]
         ++ [m + 12, m + 12 + 1, m + 12 + 2, m + 12 + 3]
         ++ [m + 16, m + 16 + 1, m + 16 + 2, m + 16 + 3]
         ++ [m + 20, m + 20 + 1, m + 20 + 2, m + 20 + 3]⟩) := by
    unfold ipfLoadFromReader
    exact iread_bind_err hfoot
  constructor
  · rw [hrun]
  · rw [hrun]
    intro p hp
    simp at hp
    omega

/-- Witness for C9 at a concrete 24-byte trailer whose magic is zero. -/
theorem ipf_open_bad_magic_witness :
    24 ≤ (List.replicate 24 0 : List Nat).length ∧
    footerMagic (List.replicate 24 0) ≠ MAGIC_NUMBER ∧
    (ipfLoadFromReader ⟨List.replicate 24 0, 0, []⟩).1 =
      .error (.badMagic MAGIC_NUMBER (footerMagic (List.replicate 24 0))) :=
  ⟨by decide, by decide,
   (ipf_open_bad_magic (List.replicate 24 0) (by decide) (by decide)).1⟩

/-! ## The XAC model decoder (`src/xac.rs`)

The `BinaryReader` position over the model bytes is carried explicitly.
Record decoders are abstracted as functions returning the position they
leave the stream at, plus the decoded record if any; the frame loop of
`XACFile::read_chunk` is modelled over an arbitrary such decoder. -/

/-- Error of the XAC loader: an unexpected end of stream while reading a
header or a chunk header. -/
inductive XacError where
  | eof : XacError
deriving Repr, DecidableEq

/-- XacHeader of `src/xac.rs`: fourcc, versions, endianness, mul order. -/
structure XacHeader where
  fourcc : Nat
  hi_version : Nat
  lo_version : Nat
  endian_type : Nat
  mul_order : Nat
deriving Repr, DecidableEq

/-- FileChunk of `src/xac.rs`: the 12-byte chunk header. -/
structure FileChunk where
  chunk_id : Nat
  size_in_bytes : Nat
  version : Nat
deriving Repr, DecidableEq

/-- The model byte stream: bytes plus cursor. -/
structure XStream where
  data : List Nat
  pos : Nat
deriving Repr, DecidableEq

/-- The little-endian `u32` at byte position `p` of `d`. -/
def readU32At (d : List Nat) (p : Nat) : Nat :=
  leU32 (d.getD p 0) (d.getD (p + 1) 0) (d.getD (p + 2) 0) (d.getD (p + 3) 0)

/-- XACVertexAttributeLayer of `src/xac.rs`; `mesh_data` holds
`attrib_size_in_bytes * total_verts` raw bytes. -/
structure XACVertexAttributeLayer where
  layer_type_id : Nat
  attrib_size_in_bytes : Nat
  enable_deformations : Nat
  is_scale : Nat
  mesh_data : List Nat
deriving Repr, DecidableEq

/-- XACSubMesh of `src/xac.rs`. -/
structure XACSubMesh where
  num_indices : Nat
  num_verts : Nat
  material_index : Nat
  num_bones : Nat
  indices : List Nat
  bones : List Nat
deriving Repr, DecidableEq

/-- XACMesh of `src/xac.rs` (chunk id 1, version 1). -/
structure XACMesh where
  node_index : Nat
  num_org_verts : Nat
  total_verts : Nat
  total_indices : Nat
  num_sub_meshes : Nat
  num_layers : Nat
  is_collision_mesh : Nat
  vertex_attribute_layer : List XACVertexAttributeLayer
  sub_meshes : List XACSubMesh
deriving Repr, DecidableEq

/-- XACMesh2 of `src/xac.rs` (chunk id 1, version 2). -/
structure XACMesh2 where
  node_index : Nat
  lod : Nat
  num_org_verts : Nat
  total_verts : Nat
  total_indices : Nat
  num_sub_meshes : Nat
  num_layers : Nat
  is_collision_mesh : Nat
  vertex_attribute_layer : List XACVertexAttributeLayer
  sub_meshes : List XACSubMesh
deriving Repr, DecidableEq

/-- XacSkinInfluence of `src/xac.rs`; the weight is an `f32` carried as
its 32-bit pattern. -/
structure XacSkinInfluence where
  weight : Nat
  node_number : Nat
deriving Repr, DecidableEq

/-- XacSkinningInfoTableEntry of `src/xac.rs`. -/
structure XacSkinningInfoTableEntry where
  start_index : Nat
  num_elements : Nat
deriving Repr, DecidableEq

/-- XacSkinningInfo3 of `src/xac.rs` (chunk id 2, version 3). -/
structure XacSkinningInfo3 where
  node_index : Nat
  num_local_bones : Nat
  num_total_influences : Nat
  is_for_collision_mesh : Nat
  padding : List Nat
  skinning_influence : List XacSkinInfluence
  skinning_info_table_entry : List XacSkinningInfoTableEntry
deriving Repr, DecidableEq

/-- The decoded-record sum type (XacChunkData of `src/xac.rs`). Only the
variants inspected by the functions verified here are carried in full;
`other` stands for every remaining variant, all of which fall into the
wildcard arm of the node-index searches in `read_xac_skinning_info2/3/4`. -/
inductive XacChunkData where
  | mesh (m : XACMesh)
  | mesh2 (m : XACMesh2)
  | skinningInfo3 (s : XacSkinningInfo3)
  | other
deriving Repr, DecidableEq

/-- XacHeader::read as invoked by `XACFile::read_header`: the first eight
bytes, little-endian, with no validation of any field. -/
def readXacHeader (d : List Nat) : Option XacHeader :=
  if 8 ≤ d.length then
    some ⟨readU32At d 0, d.getD 4 0 % 256, d.getD 5 0 % 256,
      d.getD 6 0 % 256, d.getD 7 0 % 256⟩
  else none

/-- The loop of `XACFile::read_chunk`, over an arbitrary record decoder
`dec` (the decoder returns the position it leaves the reader at together
with the record it pushes, if any). Each iteration reads the 12-byte
header, lets the decoder run, then force-seeks to
`position + size_in_bytes` — the mismatch diagnostic of the source is a
`println!` and has no observable effect modelled here — and appends the
header to the chunk list. -/
def readChunkLoop (dec : FileChunk → XStream → Nat × Option XacChunkData)
    (s : XStream) (chunks : List FileChunk) (datas : List XacChunkData) :
    Except XacError (List FileChunk × List XacChunkData) :=
  if _hEof : s.data.length ≤ s.pos then .ok (chunks, datas)
  else if _hHdr : s.pos + 12 ≤ s.data.length then
    let c : FileChunk :=
      ⟨readU32At s.data s.pos, readU32At s.data (s.pos + 4), readU32At s.data (s.pos + 8)⟩
    let consumed := dec c ⟨s.data, s.pos + 12⟩
    readChunkLoop dec ⟨s.data, s.pos + 12 + c.size_in_bytes⟩
      (chunks ++ [c]) (datas ++ consumed.2.toList)
  else .error .eof
termination_by s.data.length - s.pos
decreasing_by simp; omega

/-- The decoded model: header plus the two lists `XACFile` accumulates. -/
structure XACFileModel where
  header : XacHeader
  chunk : List FileChunk
  chunk_data : List XacChunkData
deriving Repr, DecidableEq

/-- XACFile::load_from_reader: `read_header` (which validates nothing)
followed by the chunk loop starting right after the 8 header bytes. -/
def xacLoadFromReader (dec : FileChunk → XStream → Nat × Option XacChunkData)
    (d : List Nat) : Except XacError XACFileModel :=
  match readXacHeader d with
  | none => .error .eof
  | some h => (readChunkLoop dec ⟨d, 8⟩ [] []).map fun r => ⟨h, r.1, r.2⟩

/-- The (id, version) pairs for which `XACFile::process_chunk` invokes a
record decoder; every other pair falls through with a diagnostic only. -/
def handledVersion (id version : Nat) : Bool :=
  if id = 0 then version = 1 || version = 2 || version = 3 || version = 4
  else if id = 1 then version = 1 || version = 2
  else if id = 2 then version = 1 || version = 2 || version = 3 || version = 4
  else if id = 3 then version = 1 || version = 2 || version = 3
  else if id = 4 then version = 1 || version = 2
  else if id = 5 then version = 1 || version = 2 || version = 3
  else if id = 6 then version = 1
  else if id = 7 then version = 1 || version = 2 || version = 3 || version = 4
  else if id = 8 then version = 1
  else if id = 9 then version = 1
  else if id = 10 then version = 1
  else if id = 11 then version = 1
  else if id = 12 then version = 1
  else if id = 13 then version = 1 || version = 2
  else if id = 14 then version = 1
  else if id = 15 then version = 1
  else false

/-- XACFile::process_chunk, with the individual record decoders
abstracted as `rdec`: a handled (id, version) pair runs its decoder, any
other pair reads nothing and pushes nothing. -/
def processChunkPos (rdec : FileChunk → XStream → Nat × Option XacChunkData)
    (c : FileChunk) (s : XStream) : Nat × Option XacChunkData :=
  if handledVersion c.chunk_id c.version then rdec c s else (s.pos, none)

/-- A trivial record decoder (consumes nothing, pushes nothing), used to
instantiate the decoder-generic theorems at concrete inputs. -/
def trivDec : FileChunk → XStream → Nat × Option XacChunkData :=
  fun _ s => (s.pos, none)

lemma readChunkLoop_step (dec : FileChunk → XStream → Nat × Option XacChunkData)
    (d : List Nat) (p : Nat) (chunks : List FileChunk) (datas : List XacChunkData)
    (h2 : p + 12 ≤ d.length) :
    readChunkLoop dec ⟨d, p⟩ chunks datas =
      readChunkLoop dec ⟨d, p + 12 + readU32At d (p + 4)⟩
        (chunks ++ [⟨readU32At d p, readU32At d (p + 4), readU32At d (p + 8)⟩])
        (datas ++ ((dec ⟨readU32At d p, readU32At d (p + 4), readU32At d (p + 8)⟩
          ⟨d, p + 12⟩).2).toList) := by
  rw [readChunkLoop]
  rw [dif_neg (by simp; omega), dif_pos h2]

/-- C2 counterexample: a model whose magic is `0` (not the `XAC ` tag) and
whose endianness flag is `1` (big-endian) opens successfully — the header
is stored as read and no `BadHeader`/`UnsupportedEndianness` failure
exists in the code. -/
theorem xac_open_no_validation_cex :
    xacLoadFromReader trivDec [0, 0, 0, 0, 2, 34, 1, 0] =
      .ok ⟨⟨0, 2, 34, 1, 0⟩, [], []⟩ ∧
    (0 : Nat) ≠ 0x20434158 ∧ (1 : Nat) = 1 := by
  refine ⟨?_, by decide, rfl⟩
  rw [xacLoadFromReader,
    show readXacHeader [0, 0, 0, 0, 2, 34, 1, 0] = some ⟨0, 2, 34, 1, 0⟩ from rfl]
  rw [readChunkLoop, dif_pos (by decide)]
  rfl

/-- C2 amended: `XACFile::read_header` stores the first eight bytes as
read — fourcc, versions, endianness flag and matrix order — performing
no validation at all, whatever the magic and endianness values are; and
opening an 8-byte model (header with no chunks) succeeds outright with
that unvalidated header. -/
theorem xac_open_no_validation (dec : FileChunk → XStream → Nat × Option XacChunkData)
    (d : List Nat) (h8 : 8 ≤ d.length) :
    readXacHeader d = some ⟨readU32At d 0, d.getD 4 0 % 256, d.getD 5 0 % 256,
      d.getD 6 0 % 256, d.getD 7 0 % 256⟩ ∧
    (d.length = 8 →
      xacLoadFromReader dec d =
        .ok ⟨⟨readU32At d 0, d.getD 4 0 % 256, d.getD 5 0 % 256,
          d.getD 6 0 % 256, d.getD 7 0 % 256⟩, [], []⟩) := by
  constructor
  · rw [readXacHeader, if_pos h8]
  · intro hlen
    rw [xacLoadFromReader, readXacHeader, if_pos h8]
    rw [readChunkLoop]
    rw [dif_pos (show (⟨d, 8⟩ : XStream).data.length ≤ (⟨d, 8⟩ : XStream).pos by
      show d.length ≤ 8; omega)]
    rfl

/-- Witness for C2's amended theorem at a concrete header with a
non-matching magic and a big-endian flag. -/
theorem xac_open_no_validation_witness :
    readXacHeader [1, 2, 3, 4, 2, 34, 1, 7] =
      some ⟨readU32At [1, 2, 3, 4, 2, 34, 1, 7] 0, 2, 34, 1, 7⟩ ∧
    xacLoadFromReader trivDec [1, 2, 3, 4, 2, 34, 1, 7] =
      .ok ⟨⟨readU32At [1, 2, 3, 4, 2, 34, 1, 7] 0, 2, 34, 1, 7⟩, [], []⟩ :=
  ⟨(xac_open_no_validation trivDec [1, 2, 3, 4, 2, 34, 1, 7] (by decide)).1,
   (xac_open_no_validation trivDec [1, 2, 3, 4, 2, 34, 1, 7] (by decide)).2 rfl⟩

/-- C4: for every chunk whose 12-byte header fits the stream, the loop
resumes — whatever position the dispatched record decoder `dec` reports
having reached — exactly at the recorded start offset (the position just
after the header) plus the declared `size_in_bytes`, and that position is
strictly beyond the chunk header, so decoding makes forward progress. -/
theorem read_chunk_resync (dec : FileChunk → XStream → Nat × Option XacChunkData)
    (d : List Nat) (p : Nat) (chunks : List FileChunk) (datas : List XacChunkData)
    (h2 : p + 12 ≤ d.length) :
    readChunkLoop dec ⟨d, p⟩ chunks datas =
      readChunkLoop dec ⟨d, p + 12 + readU32At d (p + 4)⟩
        (chunks ++ [⟨readU32At d p, readU32At d (p + 4), readU32At d (p + 8)⟩])
        (datas ++ ((dec ⟨readU32At d p, readU32At d (p + 4), readU32At d (p + 8)⟩
          ⟨d, p + 12⟩).2).toList) ∧
    p < p + 12 + readU32At d (p + 4) :=
  ⟨readChunkLoop_step dec d p chunks datas h2, by omega⟩

/-- Witness for C4: a 14-byte stream holding one chunk (id 1, size 2,
version 1) followed by its 2 payload bytes, stepped with the trivial
decoder. -/
theorem read_chunk_resync_witness :
    readChunkLoop trivDec ⟨[1, 0, 0, 0, 2, 0, 0, 0, 1, 0, 0, 0, 7, 7], 0⟩ [] [] =
      readChunkLoop trivDec ⟨[1, 0, 0, 0, 2, 0, 0, 0, 1, 0, 0, 0, 7, 7], 0 + 12 +
          readU32At [1, 0, 0, 0, 2, 0, 0, 0, 1, 0, 0, 0, 7, 7] (0 + 4)⟩
        ([] ++ [⟨readU32At [1, 0, 0, 0, 2, 0, 0, 0, 1, 0, 0, 0, 7, 7] 0,
          readU32At [1, 0, 0, 0, 2, 0, 0, 0, 1, 0, 0, 0, 7, 7] (0 + 4),
          readU32At [1, 0, 0, 0, 2, 0, 0, 0, 1, 0, 0, 0, 7, 7] (0 + 8)⟩])
        ([] ++ ((trivDec ⟨readU32At [1, 0, 0, 0, 2, 0, 0, 0, 1, 0, 0, 0, 7, 7] 0,
          readU32At [1, 0, 0, 0, 2, 0, 0, 0, 1, 0, 0, 0, 7, 7] (0 + 4),
          readU32At [1, 0, 0, 0, 2, 0, 0, 0, 1, 0, 0, 0, 7, 7] (0 + 8)⟩
          ⟨[1, 0, 0, 0, 2, 0, 0, 0, 1, 0, 0, 0, 7, 7], 0 + 12⟩).2).toList) ∧
    0 < 0 + 12 + readU32At [1, 0, 0, 0, 2, 0, 0, 0, 1, 0, 0, 0, 7, 7] (0 + 4) :=
  read_chunk_resync trivDec [1, 0, 0, 0, 2, 0, 0, 0, 1, 0, 0, 0, 7, 7] 0 [] []
    (by decide)

/-- C8: a chunk whose (id, version) pair is not handled by
`process_chunk` — an unknown id, or a known id with an unhandled
version — is skipped: no record is pushed, no error is raised, and the
loop continues at the next frame boundary with all subsequent chunks. -/
theorem unknown_chunk_skipped (rdec : FileChunk → XStream → Nat × Option XacChunkData)
    (d : List Nat) (p : Nat) (chunks : List FileChunk) (datas : List XacChunkData)
    (h2 : p + 12 ≤ d.length)
    (hu : handledVersion (readU32At d p) (readU32At d (p + 8)) = false) :
    readChunkLoop (processChunkPos rdec) ⟨d, p⟩ chunks datas =
      readChunkLoop (processChunkPos rdec) ⟨d, p + 12 + readU32At d (p + 4)⟩
        (chunks ++ [⟨readU32At d p, readU32At d (p + 4), readU32At d (p + 8)⟩]) datas := by
  rw [readChunkLoop_step (processChunkPos rdec) d p chunks datas h2]
  rw [show processChunkPos rdec
      ⟨readU32At d p, readU32At d (p + 4), readU32At d (p + 8)⟩ ⟨d, p + 12⟩ =
      (p + 12, none) from by rw [processChunkPos, if_neg (by simp [hu])]]
  simp

/-- Witness for C8: a chunk with unknown id 99 (size 2, version 1)
followed by payload bytes is skipped and the loop continues. -/
theorem unknown_chunk_skipped_witness :
    readChunkLoop (processChunkPos trivDec) ⟨[99, 0, 0, 0, 2, 0, 0, 0, 1, 0, 0, 0, 7, 7], 0⟩ [] [] =
      readChunkLoop (processChunkPos trivDec) ⟨[99, 0, 0, 0, 2, 0, 0, 0, 1, 0, 0, 0, 7, 7], 0 + 12 +
          readU32At [99, 0, 0, 0, 2, 0, 0, 0, 1, 0, 0, 0, 7, 7] (0 + 4)⟩
        ([] ++ [⟨readU32At [99, 0, 0, 0, 2, 0, 0, 0, 1, 0, 0, 0, 7, 7] 0,
          readU32At [99, 0, 0, 0, 2, 0, 0, 0, 1, 0, 0, 0, 7, 7] (0 + 4),
          readU32At [99, 0, 0, 0, 2, 0, 0, 0, 1, 0, 0, 0, 7, 7] (0 + 8)⟩]) [] :=
  unknown_chunk_skipped trivDec [99, 0, 0, 0, 2, 0, 0, 0, 1, 0, 0, 0, 7, 7] 0 [] []
    (by decide) (by decide)

/-! ## SkinningInfo decoding (`XACFile::read_xac_skinning_info3`) -/

/-- Four little-endian bytes at the cursor, or `none` past the end. -/
def takeU32 (s : XStream) : Option (Nat × XStream) :=
  if s.pos + 4 ≤ s.data.length then
    some (readU32At s.data s.pos, ⟨s.data, s.pos + 4⟩)
  else none

/-- One byte at the cursor. -/
def takeU8 (s : XStream) : Option (Nat × XStream) :=
  if s.pos + 1 ≤ s.data.length then
    some (s.data.getD s.pos 0 % 256, ⟨s.data, s.pos + 1⟩)
  else none

/-- A run of `n` raw bytes at the cursor. -/
def takeBytes (n : Nat) (s : XStream) : Option (List Nat × XStream) :=
  if s.pos + n ≤ s.data.length then
    some ((slice s.data s.pos n).map (· % 256), ⟨s.data, s.pos + n⟩)
  else none

/-- `count` repetitions of a fixed-shape element, in order. -/
def parseCount {α : Type} (p : XStream → Option (α × XStream)) :
    Nat → XStream → Option (List α × XStream)
  | 0, s => some ([], s)
  | n + 1, s => do
    let (a, s1) ← p s
    let (rest, s2) ← parseCount p n s1
    some (a :: rest, s2)

/-- XacSkinInfluence: `f32` weight (kept as its bit pattern), `u32` node. -/
def parseSkinInfluence (s : XStream) : Option (XacSkinInfluence × XStream) := do
  let (w, s1) ← takeU32 s
  let (nn, s2) ← takeU32 s1
  some (⟨w, nn⟩, s2)

/-- XacSkinningInfoTableEntry: two `u32` fields. -/
def parseTableEntry (s : XStream) : Option (XacSkinningInfoTableEntry × XStream) := do
  let (si, s1) ← takeU32 s
  let (ne, s2) ← takeU32 s1
  some (⟨si, ne⟩, s2)

/-- The binread shape of XacSkinningInfo3, parameterized by the imported
`num_org_verts` that sizes the table-entry array. -/
def parseSkinningInfo3 (num_org_verts : Nat) (s : XStream) :
    Option (XacSkinningInfo3 × XStream) := do
  let (node_index, s1) ← takeU32 s
  let (num_local_bones, s2) ← takeU32 s1
  let (num_total_influences, s3) ← takeU32 s2
  let (is_for_collision_mesh, s4) ← takeU8 s3
  let (padding, s5) ← takeBytes 3 s4
  let (skinning_influence, s6) ← parseCount parseSkinInfluence num_total_influences s5
  let (skinning_info_table_entry, s7) ← parseCount parseTableEntry num_org_verts s6
  some (⟨node_index, num_local_bones, num_total_influences, is_for_collision_mesh,
    padding, skinning_influence, skinning_info_table_entry⟩, s7)

/-- XACFile::read_xac_skinning_info3: read `node_id`, scan the decoded
chunks for a Mesh/Mesh2 with that node index — taking its
`num_org_verts` and seeking back 4 bytes on each match, and doing
nothing at all on the other variants — then parse the record with the
resulting `num_org_verts`. Note the seek-back happens only inside the
match arms, exactly as in the source. -/
def read_xac_skinning_info3 (chunk_data : List XacChunkData) (s : XStream) :
    Option (XacSkinningInfo3 × XStream) := do
  let (node_id, s1) ← takeU32 s
  let st := chunk_data.foldl
    (fun (acc : Nat × XStream) cd =>
      match cd with
      | .mesh m =>
        if m.node_index = node_id then (m.num_org_verts, ⟨acc.2.data, acc.2.pos - 4⟩)
        else acc
      | .mesh2 m =>
        if m.node_index = node_id then (m.num_org_verts, ⟨acc.2.data, acc.2.pos - 4⟩)
        else acc
      | _ => acc)
    (0, s1)
  parseSkinningInfo3 st.1 st.2

/-- A Mesh record with node index 7 and `num_org_verts` 3 and no other
content, as it would sit in `chunk_data` ahead of a SkinningInfo chunk. -/
def meshNode7 : XACMesh := ⟨7, 3, 0, 0, 0, 0, 0, [], []⟩

/-- A well-formed SkinningInfo-v3 payload for node 7 with no influences
and three table entries. -/
def skinPayloadMatched : List Nat :=
  [7, 0, 0, 0, 2, 0, 0, 0, 0, 0, 0, 0, 1, 0, 0, 0,
   10, 0, 0, 0, 1, 0, 0, 0, 11, 0, 0, 0, 2, 0, 0, 0, 12, 0, 0, 0, 3, 0, 0, 0]

/-- A SkinningInfo-v3 payload whose embedded node index 7 matches no
decoded Mesh: first u32 7 (the peeked node id), second u32 9. -/
def skinPayloadUnmatched : List Nat :=
  [7, 0, 0, 0, 9, 0, 0, 0, 0, 0, 0, 0, 0, 0, 0, 0, 1, 0, 0, 0]

/-- C3: `read_xac_skinning_info3` on a matching Mesh (node 7,
`num_org_verts` 3) re-reads the node index and decodes exactly 3 table
entries — but when no Mesh matches, the position is NOT seeked back, so
the record is decoded 4 bytes into the payload: its `node_index` field
comes out as the second u32 (9) instead of the peeked node id (7). The
claim's unconditional "read then seek back 4" does not hold on the
no-match path. -/
theorem skinning_info3_peek_not_restored :
    read_xac_skinning_info3 [.mesh meshNode7] ⟨skinPayloadMatched, 0⟩ =
      some (⟨7, 2, 0, 1, [0, 0, 0], [],
        [⟨10, 1⟩, ⟨11, 2⟩, ⟨12, 3⟩]⟩, ⟨skinPayloadMatched, 40⟩) ∧
    (read_xac_skinning_info3 [.mesh meshNode7]
      ⟨skinPayloadMatched, 0⟩).map (fun r => r.1.skinning_info_table_entry.length) =
      some 3 ∧
    read_xac_skinning_info3 [] ⟨skinPayloadUnmatched, 0⟩ =
      some (⟨9, 0, 0, 1, [0, 0, 0], [], []⟩, ⟨skinPayloadUnmatched, 20⟩) ∧
    (9 : Nat) ≠ 7 := by
  refine ⟨?_, ?_, ?_, by decide⟩ <;> rfl

/-! ## Mesh assembly (`XACFile::export_to_struct`)

Attribute values are `f32`/`u32` little-endian decodes of fixed-width
rows; `f32` values are carried as 32-bit patterns, so the Rust `-x` is
the sign-bit flip `fnegBits`. The texture-name table built by
`get_texture_names` enters as a parameter. -/

/-- Rust `f32` negation on the bit pattern: flip the sign bit. -/
def fnegBits (b : Nat) : Nat :=
  if b < 2147483648 then b + 2147483648 else b - 2147483648

/-- `f32::from_le_bytes`/`u32::from_le_bytes` on the first 4 bytes of a row. -/
def le32of (r : List Nat) : Nat :=
  leU32 (r.getD 0 0) (r.getD 1 0) (r.getD 2 0) (r.getD 3 0)

/-- A two-float row (UV coordinates). -/
def vec2Of (r : List Nat) : Nat × Nat := (le32of r, le32of (r.drop 4))

/-- A three-float row (positions, normals, bitangents). -/
def vec3Of (r : List Nat) : Nat × Nat × Nat :=
  (le32of r, le32of (r.drop 4), le32of (r.drop 8))

/-- A four-float row (tangents, 128-bit colors). -/
def vec4Of (r : List Nat) : Nat × Nat × Nat × Nat :=
  (le32of r, le32of (r.drop 4), le32of (r.drop 8), le32of (r.drop 12))

/-- The `[-x, y, z]` push of the position/normal/bitangent loops. -/
def negX3 (v : Nat × Nat × Nat) : Nat × Nat × Nat := (fnegBits v.1, v.2.1, v.2.2)

/-- SubMesh of `src/xac.rs` (the assembled output record). -/
structure SubMesh where
  texture_name : String
  position_count : Nat
  positions : List (Nat × Nat × Nat)
  normal_count : Nat
  normals : List (Nat × Nat × Nat)
  tangent_count : Nat
  tangents : List (Nat × Nat × Nat × Nat)
  uvcoord_count : Nat
  uvcoords : List (Nat × Nat)
  color32_count : Nat
  colors32 : List Nat
  original_vertex_numbers_count : Nat
  original_vertex_numbers : List Nat
  color128_count : Nat
  colors128 : List (Nat × Nat × Nat × Nat)
  bitangent_count : Nat
  bitangents : List (Nat × Nat × Nat)
deriving Repr, DecidableEq

/-- Mesh of `src/xac.rs` (the assembled output). -/
structure Mesh where
  submesh_count : Nat
  submeshes : List SubMesh
deriving Repr, DecidableEq

/-- One attribute loop of `export_to_struct`: for each remaining vertex
(`v` is the absolute `vertex_offset + v` of the code, already folded into
`base`; we pass the running relative index), compute
`offset = ((base + v) * width) as u32 as usize`, fail with the block's
message when `offset + width` overruns the buffer, else take the row. -/
def readRowsGo (D : List Nat) (base width : Nat) (msg : String) :
    Nat → Nat → Except String (List (List Nat))
  | _, 0 => .ok []
  | v, n + 1 =>
    let off := (base + v) % U32 * width % U32
    if off + width > D.length then .error msg
    else do
      let rest ← readRowsGo D base width msg (v + 1) n
      .ok (slice D off width :: rest)

/-- The rows an attribute loop reads for one submesh. -/
def readRows (D : List Nat) (base width nv : Nat) (msg : String) :
    Except String (List (List Nat)) :=
  readRowsGo D base width msg 0 nv

/-- An attribute block: skipped entirely when the layer is absent. -/
def attrRes (Dq : Option (List Nat)) (base width nv : Nat) (msg : String) :
    Except String (List (List Nat)) :=
  match Dq with
  | none => .ok []
  | some D => readRows D base width nv msg

/-- The eight per-mesh attribute buffers found by `export_to_struct`
(`mesh_data` of the first layer of each `layer_type_id`, if any). -/
structure AttrData where
  posD : Option (List Nat)
  normD : Option (List Nat)
  tanD : Option (List Nat)
  uvD : Option (List Nat)
  c32D : Option (List Nat)
  orgD : Option (List Nat)
  c128D : Option (List Nat)
  bitD : Option (List Nat)
deriving Repr, DecidableEq

/-- The texture-name resolution of `export_to_struct`: index 0 and
out-of-range indices give the empty name. -/
def texOf (tn : List String) (mi : Nat) : String :=
  if mi ≠ 0 then ((tn.get? mi).getD "") else ""

/-- The body of `export_to_struct`'s submesh loop for one submesh at
running vertex offset `base`: the eight attribute blocks in source
order, each feeding its typed array and count; positions, normals and
bitangents get the X sign flip, the rest pass through. -/
def assembleSubmesh (tn : List String) (ad : AttrData) (base : Nat)
    (sm : XACSubMesh) : Except String SubMesh := do
  let rp ← attrRes ad.posD base 12 sm.num_verts "Vertex data out of bounds"
  let rn ← attrRes ad.normD base 12 sm.num_verts "Normal data out of bounds"
  let rt ← attrRes ad.tanD base 16 sm.num_verts "Tangent data out of bounds"
  let ru ← attrRes ad.uvD base 8 sm.num_verts "UV data out of bounds"
  let rc ← attrRes ad.c32D base 4 sm.num_verts "Color32 data out of bounds"
  let ro ← attrRes ad.orgD base 4 sm.num_verts "Original vertex numbers data out of bounds"
  let rcc ← attrRes ad.c128D base 16 sm.num_verts "Color128 data out of bounds"
  let rb ← attrRes ad.bitD base 12 sm.num_verts "Bitangent data out of bounds"
  let positions := rp.map (fun r => negX3 (vec3Of r))
  let normals := rn.map (fun r => negX3 (vec3Of r))
  let tangents := rt.map vec4Of
  let uvcoords := ru.map vec2Of
  let colors32 := rc.map le32of
  let original_vertex_numbers := ro.map le32of
  let colors128 := rcc.map vec4Of
  let bitangents := rb.map (fun r => negX3 (vec3Of r))
  .ok ⟨texOf tn sm.material_index, positions.length, positions, normals.length,
    normals, tangents.length, tangents, uvcoords.length, uvcoords, colors32.length,
    colors32, original_vertex_numbers.length, original_vertex_numbers,
    colors128.length, colors128, bitangents.length, bitangents⟩

/-- The `if it has valid data` test guarding the `submeshes.push`. -/
def hasData (s : SubMesh) : Bool :=
  !s.positions.isEmpty || !s.normals.isEmpty || !s.tangents.isEmpty ||
  !s.uvcoords.isEmpty || !s.colors32.isEmpty ||
  !s.original_vertex_numbers.isEmpty || !s.colors128.isEmpty ||
  !s.bitangents.isEmpty

/-- The submesh loop of `export_to_struct`: assemble each submesh at the
running offset, push it only when `hasData`, advance the offset by its
vertex count (u32 addition). -/
def exportLoop (tn : List String) (ad : AttrData) :
    List XACSubMesh → Nat → Except String (List SubMesh)
  | [], _ => .ok []
  | sm :: rest, off => do
    let s ← assembleSubmesh tn ad off sm
    let tail ← exportLoop tn ad rest ((off + sm.num_verts) % U32)
    .ok (if hasData s then s :: tail else tail)

/-- Reference loop that appends every assembled submesh, used to state
what the filtering in `exportLoop` drops. -/
def assembleAll (tn : List String) (ad : AttrData) :
    List XACSubMesh → Nat → Except String (List SubMesh)
  | [], _ => .ok []
  | sm :: rest, off => do
    let s ← assembleSubmesh tn ad off sm
    let tail ← assembleAll tn ad rest ((off + sm.num_verts) % U32)
    .ok (s :: tail)

/-- The `find` over `vertex_attribute_layer` by `layer_type_id`. -/
def findLayer (layers : List XACVertexAttributeLayer) (tid : Nat) :
    Option (List Nat) :=
  (layers.find? (fun l => l.layer_type_id == tid)).map (·.mesh_data)

/-- The eight layer lookups at the top of `export_to_struct`
(`XacAttribute` ids 0..7 in source order). -/
def attrDataOf (m : XACMesh) : AttrData :=
  ⟨findLayer m.vertex_attribute_layer 0, findLayer m.vertex_attribute_layer 1,
   findLayer m.vertex_attribute_layer 2, findLayer m.vertex_attribute_layer 3,
   findLayer m.vertex_attribute_layer 4, findLayer m.vertex_attribute_layer 5,
   findLayer m.vertex_attribute_layer 6, findLayer m.vertex_attribute_layer 7⟩

/-- XACFile::export_to_struct, with the texture-name table `tn`
(`get_texture_names()` in the source) passed in. -/
def export_to_struct (tn : List String) (m : XACMesh) : Except String Mesh :=
  (exportLoop tn (attrDataOf m) m.sub_meshes 0).map fun l => ⟨l.length, l⟩

/-- The running vertex offset the loop has reached when it starts
submesh `k`, beginning from `off` (u32 additions, as in the loop). -/
def offFrom (off : Nat) (sms : List XACSubMesh) (k : Nat) : Nat :=
  (sms.take k).foldl (fun a sm => (a + sm.num_verts) % U32) off

/-- Spec-side row extraction, following the spec's words: the rows of
vertex indices `[base, base + nv)` at the attribute's fixed width, with
plain (non-wrapping) arithmetic; an absent layer contributes no rows. -/
def rowsOf (Dq : Option (List Nat)) (base width nv : Nat) : List (List Nat) :=
  match Dq with
  | none => []
  | some D => (List.range nv).map fun v => slice D ((base + v) * width) width

/-- A default submesh descriptor, for `getD` in statements. -/
def defaultSubMeshDesc : XACSubMesh := ⟨0, 0, 0, 0, [], []⟩

lemma readRowsGo_length (D : List Nat) (b w : Nat) (msg : String) :
    ∀ (n v : Nat) (rows : List (List Nat)),
      readRowsGo D b w msg v n = .ok rows → rows.length = n := by
  intro n
  induction n with
  | zero =>
    intro v rows h
    simp only [readRowsGo] at h
    cases h
    rfl
  | succ n ih =>
    intro v rows h
    simp only [readRowsGo] at h
    by_cases hc : (b + v) % U32 * w % U32 + w > D.length
    · rw [if_pos hc] at h; exact absurd h (by simp)
    · rw [if_neg hc] at h
      cases h' : readRowsGo D b w msg (v + 1) n with
      | error e => rw [h'] at h; exact absurd h (by simp [Bind.bind, Except.bind])
      | ok rest =>
        rw [h'] at h
        simp only [Bind.bind, Except.bind, Except.ok.injEq] at h
        rw [← h]
        simp [ih (v + 1) rest h']

lemma readRowsGo_ok (D : List Nat) (b w : Nat) (msg : String) (hw : 0 < w) :
    ∀ (n v : Nat) (rows : List (List Nat)), (b + v + n) * w < U32 →
      readRowsGo D b w msg v n = .ok rows →
      rows = (List.range n).map (fun j => slice D ((b + v + j) * w) w) ∧
      ∀ j, j < n → (b + v + j) * w + w ≤ D.length := by
  intro n
  induction n with
  | zero =>
    intro v rows _ h
    simp only [readRowsGo] at h
    cases h
    exact ⟨by simp, fun j hj => absurd hj (by omega)⟩
  | succ n ih =>
    intro v rows hov h
    have hmul : b + v + (n + 1) ≤ (b + v + (n + 1)) * w :=
      Nat.le_mul_of_pos_right _ hw
    have h1 : b + v < U32 := by omega
    have h2 : (b + v) * w < U32 := by
      have := Nat.mul_le_mul_right w (show b + v ≤ b + v + (n + 1) by omega)
      omega
    simp only [readRowsGo] at h
    rw [Nat.mod_eq_of_lt h1, Nat.mod_eq_of_lt h2] at h
    by_cases hc : (b + v) * w + w > D.length
    · rw [if_pos hc] at h; exact absurd h (by simp)
    · rw [if_neg hc] at h
      cases h' : readRowsGo D b w msg (v + 1) n with
      | error e => rw [h'] at h; exact absurd h (by simp [Bind.bind, Except.bind])
      | ok rest =>
        rw [h'] at h
        simp only [Bind.bind, Except.bind, Except.ok.injEq] at h
        have hov' : (b + (v + 1) + n) * w < U32 := by
          rw [show b + (v + 1) + n = b + v + (n + 1) from by omega]; exact hov
        obtain ⟨hrest, hfit⟩ := ih (v + 1) rest hov' h'
        constructor
        · rw [← h, hrest, List.range_succ_eq_map]
          simp only [List.map_cons, List.map_map]
          refine congrArg₂ List.cons (by simp) ?_
          apply List.map_congr_left
          intro j _
          simp only [Function.comp_apply, Nat.succ_eq_add_one]
          rw [show b + (v + 1) + j = b + v + (j + 1) from by omega]
        · intro j hj
          match j with
          | 0 => simpa using (by omega : (b + v) * w + w ≤ D.length)
          | j + 1 =>
            have := hfit j (by omega)
            rw [show b + v + (j + 1) = b + (v + 1) + j from by omega]
            exact this

lemma readRows_ok (D : List Nat) (b w nv : Nat) (msg : String) (hw : 0 < w)
    (hov : (b + nv) * w < U32) (rows : List (List Nat))
    (h : readRows D b w nv msg = .ok rows) :
    rows = (List.range nv).map (fun j => slice D ((b + j) * w) w) ∧
    ∀ j, j < nv → (b + j) * w + w ≤ D.length := by
  have := readRowsGo_ok D b w msg hw nv 0 rows (by simpa using hov) h
  simpa using this

lemma except_bind_ok {α β : Type} {m : Except String α} {f : α → Except String β}
    {b : β} (h : (m >>= f) = .ok b) : ∃ a, m = .ok a ∧ f a = .ok b := by
  cases m with
  | error e => exact absurd h (by simp [Bind.bind, Except.bind])
  | ok a => exact ⟨a, rfl, by simpa [Bind.bind, Except.bind] using h⟩

lemma assembleSubmesh_ok {tn : List String} {ad : AttrData} {base : Nat}
    {sm : XACSubMesh} {s : SubMesh}
    (h : assembleSubmesh tn ad base sm = .ok s) :
    ∃ rp rn rt ru rc ro rcc rb,
      attrRes ad.posD base 12 sm.num_verts "Vertex data out of bounds" = .ok rp ∧
      attrRes ad.normD base 12 sm.num_verts "Normal data out of bounds" = .ok rn ∧
      attrRes ad.tanD base 16 sm.num_verts "Tangent data out of bounds" = .ok rt ∧
      attrRes ad.uvD base 8 sm.num_verts "UV data out of bounds" = .ok ru ∧
      attrRes ad.c32D base 4 sm.num_verts "Color32 data out of bounds" = .ok rc ∧
      attrRes ad.orgD base 4 sm.num_verts "Original vertex numbers data out of bounds" = .ok ro ∧
      attrRes ad.c128D base 16 sm.num_verts "Color128 data out of bounds" = .ok rcc ∧
      attrRes ad.bitD base 12 sm.num_verts "Bitangent data out of bounds" = .ok rb ∧
      s = ⟨texOf tn sm.material_index,
        (rp.map (fun r => negX3 (vec3Of r))).length, rp.map (fun r => negX3 (vec3Of r)),
        (rn.map (fun r => negX3 (vec3Of r))).length, rn.map (fun r => negX3 (vec3Of r)),
        (rt.map vec4Of).length, rt.map vec4Of,
        (ru.map vec2Of).length, ru.map vec2Of,
        (rc.map le32of).length, rc.map le32of,
        (ro.map le32of).length, ro.map le32of,
        (rcc.map vec4Of).length, rcc.map vec4Of,
        (rb.map (fun r => negX3 (vec3Of r))).length, rb.map (fun r => negX3 (vec3Of r))⟩ := by
  rw [assembleSubmesh] at h
  obtain ⟨rp, h1, h⟩ := except_bind_ok h
  obtain ⟨rn, h2, h⟩ := except_bind_ok h
  obtain ⟨rt, h3, h⟩ := except_bind_ok h
  obtain ⟨ru, h4, h⟩ := except_bind_ok h
  obtain ⟨rc, h5, h⟩ := except_bind_ok h
  obtain ⟨ro, h6, h⟩ := except_bind_ok h
  obtain ⟨rcc, h7, h⟩ := except_bind_ok h
  obtain ⟨rb, h8, h⟩ := except_bind_ok h
  simp only [Except.ok.injEq] at h
  exact ⟨rp, rn, rt, ru, rc, ro, rcc, rb, h1, h2, h3, h4, h5, h6, h7, h8, h.symm⟩

lemma exportLoop_ok_elim (tn : List String) (ad : AttrData) :
    ∀ (sms : List XACSubMesh) (off : Nat) (out : List SubMesh),
      exportLoop tn ad sms off = .ok out →
      ∀ k, k < sms.length →
        ∃ s, assembleSubmesh tn ad (offFrom off sms k)
            (sms.getD k defaultSubMeshDesc) = .ok s ∧
          (hasData s = true → s ∈ out) := by
  intro sms
  induction sms with
  | nil => intro off out _ k hk; exact absurd hk (by simp)
  | cons sm rest ih =>
    intro off out h k hk
    rw [exportLoop] at h
    obtain ⟨s0, h1, h⟩ := except_bind_ok h
    obtain ⟨tail, h2, h⟩ := except_bind_ok h
    have hout : out = if hasData s0 then s0 :: tail else tail := by
      simpa using h.symm
    match k with
    | 0 =>
      refine ⟨s0, by simpa [offFrom] using h1, fun hd => ?_⟩
      rw [hout, if_pos hd]
      exact List.mem_cons_self _ _
    | k + 1 =>
      obtain ⟨s, ha, hm⟩ := ih ((off + sm.num_verts) % U32) tail h2 k (by simpa using hk)
      refine ⟨s, by simpa [offFrom] using ha, fun hd => ?_⟩
      rw [hout]
      by_cases hh : hasData s0 = true
      · rw [if_pos hh]; exact List.mem_cons_of_mem _ (hm hd)
      · rw [if_neg hh]; exact hm hd

lemma exportLoop_mem_elim (tn : List String) (ad : AttrData) :
    ∀ (sms : List XACSubMesh) (off : Nat) (out : List SubMesh),
      exportLoop tn ad sms off = .ok out →
      ∀ s ∈ out, ∃ sm off2, sm ∈ sms ∧ assembleSubmesh tn ad off2 sm = .ok s := by
  intro sms
  induction sms with
  | nil =>
    intro off out h s hs
    rw [exportLoop] at h
    simp only [Except.ok.injEq] at h
    rw [← h] at hs
    exact absurd hs (by simp)
  | cons sm rest ih =>
    intro off out h s hs
    rw [exportLoop] at h
    obtain ⟨s0, h1, h⟩ := except_bind_ok h
    obtain ⟨tail, h2, h⟩ := except_bind_ok h
    have hout : out = if hasData s0 then s0 :: tail else tail := by
      simpa using h.symm
    rw [hout] at hs
    have htail : s ∈ tail → ∃ sm2 off2, sm2 ∈ sm :: rest ∧
        assembleSubmesh tn ad off2 sm2 = .ok s := by
      intro hmem
      obtain ⟨sm2, off2, hmem2, hok⟩ := ih _ tail h2 s hmem
      exact ⟨sm2, off2, List.mem_cons_of_mem _ hmem2, hok⟩
    by_cases hh : hasData s0 = true
    · rw [if_pos hh] at hs
      rcases List.mem_cons.mp hs with h0 | hmem
      · exact ⟨sm, off, List.mem_cons_self _ _, h0 ▸ h1⟩
      · exact htail hmem
    · rw [if_neg hh] at hs
      exact htail hs

lemma exportLoop_eq_filter (tn : List String) (ad : AttrData) :
    ∀ (sms : List XACSubMesh) (off : Nat),
      exportLoop tn ad sms off =
        (assembleAll tn ad sms off).map (List.filter hasData) := by
  intro sms
  induction sms with
  | nil => intro off; rfl
  | cons sm rest ih =>
    intro off
    rw [exportLoop, assembleAll]
    cases h1 : assembleSubmesh tn ad off sm with
    | error e => simp [Bind.bind, Except.bind, Except.map]
    | ok s =>
      simp only [Bind.bind, Except.bind]
      rw [ih ((off + sm.num_verts) % U32)]
      cases h2 : assembleAll tn ad rest ((off + sm.num_verts) % U32) with
      | error e => simp [Except.map]
      | ok tail =>
        simp [Except.map, List.filter_cons]

lemma attrRes_rows {Dq : Option (List Nat)} {base w nv : Nat} {msg : String}
    {r : List (List Nat)} (hw : 0 < w) (hw16 : w ≤ 16)
    (hov : (base + nv) * 16 < U32)
    (h : attrRes Dq base w nv msg = .ok r) : r = rowsOf Dq base w nv := by
  cases Dq with
  | none =>
    simp only [attrRes, Except.ok.injEq] at h
    rw [← h, rowsOf]
  | some D =>
    have hovw : (base + nv) * w < U32 := by
      have := Nat.mul_le_mul_left (base + nv) hw16
      omega
    obtain ⟨hr, _⟩ := readRows_ok D base w nv msg hw hovw r h
    rw [hr, rowsOf]

/-- C5: every assembled submesh negates the X component of each position,
normal and bitangent row and passes tangent, UV and color rows (and the
original vertex numbers) through unchanged. -/
theorem assemble_negates_x_only (tn : List String) (ad : AttrData) (base : Nat)
    (sm : XACSubMesh) (s : SubMesh) (hov : (base + sm.num_verts) * 16 < U32)
    (h : assembleSubmesh tn ad base sm = .ok s) :
    s.positions = (rowsOf ad.posD base 12 sm.num_verts).map (fun r => negX3 (vec3Of r)) ∧
    s.normals = (rowsOf ad.normD base 12 sm.num_verts).map (fun r => negX3 (vec3Of r)) ∧
    s.bitangents = (rowsOf ad.bitD base 12 sm.num_verts).map (fun r => negX3 (vec3Of r)) ∧
    s.tangents = (rowsOf ad.tanD base 16 sm.num_verts).map vec4Of ∧
    s.uvcoords = (rowsOf ad.uvD base 8 sm.num_verts).map vec2Of ∧
    s.colors32 = (rowsOf ad.c32D base 4 sm.num_verts).map le32of ∧
    s.original_vertex_numbers = (rowsOf ad.orgD base 4 sm.num_verts).map le32of ∧
    s.colors128 = (rowsOf ad.c128D base 16 sm.num_verts).map vec4Of := by
  obtain ⟨rp, rn, rt, ru, rc, ro, rcc, rb, h1, h2, h3, h4, h5, h6, h7, h8, hs⟩ :=
    assembleSubmesh_ok h
  subst hs
  refine ⟨?_, ?_, ?_, ?_, ?_, ?_, ?_, ?_⟩ <;>
    simp only [] <;>
    first
    | rw [attrRes_rows (by omega) (by omega) hov h1]
    | rw [attrRes_rows (by omega) (by omega) hov h2]
    | rw [attrRes_rows (by omega) (by omega) hov h3]
    | rw [attrRes_rows (by omega) (by omega) hov h4]
    | rw [attrRes_rows (by omega) (by omega) hov h5]
    | rw [attrRes_rows (by omega) (by omega) hov h6]
    | rw [attrRes_rows (by omega) (by omega) hov h7]
    | rw [attrRes_rows (by omega) (by omega) hov h8]

/-- The single position row `(1.0, 2.0, 3.0)` as little-endian `f32`
bytes (`0x3F800000`, `0x40000000`, `0x40400000`). -/
def wRow : List Nat := [0, 0, 128, 63, 0, 0, 0, 64, 0, 0, 64, 64]

/-- Attribute buffers with only a position layer holding `wRow`. -/
def wAttr : AttrData := ⟨some wRow, none, none, none, none, none, none, none⟩

/-- A one-vertex submesh descriptor. -/
def wSubDesc : XACSubMesh := ⟨0, 1, 0, 0, [], []⟩

/-- The submesh assembled from `wAttr`/`wSubDesc`: the position
`(1.0, 2.0, 3.0)` comes out with bit patterns `(-1.0, 2.0, 3.0)`. -/
def wSub0 : SubMesh :=
  ⟨"", 1, [(3212836864, 1073741824, 1077936128)], 0, [], 0, [], 0, [], 0, [],
   0, [], 0, [], 0, []⟩

/-- Witness for C5: the one-row position layer assembles with the X sign
bit flipped (`0x3F800000 ↦ 0xBF800000`). -/
theorem assemble_negates_x_only_witness :
    wSub0.positions = (rowsOf wAttr.posD 0 12 wSubDesc.num_verts).map
      (fun r => negX3 (vec3Of r)) ∧
    wSub0.normals = (rowsOf wAttr.normD 0 12 wSubDesc.num_verts).map
      (fun r => negX3 (vec3Of r)) ∧
    wSub0.bitangents = (rowsOf wAttr.bitD 0 12 wSubDesc.num_verts).map
      (fun r => negX3 (vec3Of r)) ∧
    wSub0.tangents = (rowsOf wAttr.tanD 0 16 wSubDesc.num_verts).map vec4Of ∧
    wSub0.uvcoords = (rowsOf wAttr.uvD 0 8 wSubDesc.num_verts).map vec2Of ∧
    wSub0.colors32 = (rowsOf wAttr.c32D 0 4 wSubDesc.num_verts).map le32of ∧
    wSub0.original_vertex_numbers =
      (rowsOf wAttr.orgD 0 4 wSubDesc.num_verts).map le32of ∧
    wSub0.colors128 = (rowsOf wAttr.c128D 0 16 wSubDesc.num_verts).map vec4Of :=
  assemble_negates_x_only [] wAttr 0 wSubDesc wSub0 (by decide) (by rfl)

/-- A mesh declaring one submesh with no attribute layers at all. -/
def oneEmptySubmeshMesh : XACMesh := ⟨0, 0, 0, 0, 1, 0, 0, [], [⟨0, 0, 0, 0, [], []⟩]⟩

/-- C7 counterexample: a mesh declaring one submesh whose every attribute
array is empty assembles to an output with zero submeshes, not one. -/
theorem export_drops_empty_submesh_cex :
    export_to_struct [] oneEmptySubmeshMesh = .ok ⟨0, []⟩ ∧
    oneEmptySubmeshMesh.sub_meshes.length = 1 ∧
    oneEmptySubmeshMesh.num_sub_meshes = 1 :=
  ⟨rfl, rfl, rfl⟩

/-- C7 amended: `export_to_struct` assembles one submesh per descriptor
in declaration order but appends only those with at least one non-empty
attribute array; submeshes whose every attribute array is empty are
dropped, so the output can hold fewer submeshes than the mesh declares. -/
theorem export_appends_only_nonempty (tn : List String) (m : XACMesh) :
    export_to_struct tn m =
      (assembleAll tn (attrDataOf m) m.sub_meshes 0).map
        (fun l => ⟨(l.filter hasData).length, l.filter hasData⟩) := by
  rw [export_to_struct, exportLoop_eq_filter]
  cases assembleAll tn (attrDataOf m) m.sub_meshes 0 with
  | error e => rfl
  | ok l => rfl

/-- Each `*_count` field equals the length of its array. -/
def countsMatch (s : SubMesh) : Prop :=
  s.position_count = s.positions.length ∧
  s.normal_count = s.normals.length ∧
  s.tangent_count = s.tangents.length ∧
  s.uvcoord_count = s.uvcoords.length ∧
  s.color32_count = s.colors32.length ∧
  s.original_vertex_numbers_count = s.original_vertex_numbers.length ∧
  s.color128_count = s.colors128.length ∧
  s.bitangent_count = s.bitangents.length

/-- Every non-empty attribute array has exactly `nv` elements. -/
def sizedBy (s : SubMesh) (nv : Nat) : Prop :=
  (s.positions ≠ [] → s.positions.length = nv) ∧
  (s.normals ≠ [] → s.normals.length = nv) ∧
  (s.tangents ≠ [] → s.tangents.length = nv) ∧
  (s.uvcoords ≠ [] → s.uvcoords.length = nv) ∧
  (s.colors32 ≠ [] → s.colors32.length = nv) ∧
  (s.original_vertex_numbers ≠ [] → s.original_vertex_numbers.length = nv) ∧
  (s.colors128 ≠ [] → s.colors128.length = nv) ∧
  (s.bitangents ≠ [] → s.bitangents.length = nv)

lemma attrRes_length {Dq : Option (List Nat)} {base w nv : Nat} {msg : String}
    {r : List (List Nat)} (h : attrRes Dq base w nv msg = .ok r) :
    r = [] ∨ r.length = nv := by
  cases Dq with
  | none => simp only [attrRes, Except.ok.injEq] at h; exact Or.inl h.symm
  | some D => exact Or.inr (readRowsGo_length D base w msg nv 0 r h)

lemma assembleSubmesh_sized {tn : List String} {ad : AttrData} {base : Nat}
    {sm : XACSubMesh} {s : SubMesh}
    (h : assembleSubmesh tn ad base sm = .ok s) :
    countsMatch s ∧ sizedBy s sm.num_verts := by
  obtain ⟨rp, rn, rt, ru, rc, ro, rcc, rb, h1, h2, h3, h4, h5, h6, h7, h8, hs⟩ :=
    assembleSubmesh_ok h
  subst hs
  constructor
  · exact ⟨rfl, rfl, rfl, rfl, rfl, rfl, rfl, rfl⟩
  · refine ⟨?_, ?_, ?_, ?_, ?_, ?_, ?_, ?_⟩ <;> intro hne <;>
      simp only [List.length_map]
    · rcases attrRes_length h1 with hr | hr
      · subst hr; simp at hne
      · exact hr
    · rcases attrRes_length h2 with hr | hr
      · subst hr; simp at hne
      · exact hr
    · rcases attrRes_length h3 with hr | hr
      · subst hr; simp at hne
      · exact hr
    · rcases attrRes_length h4 with hr | hr
      · subst hr; simp at hne
      · exact hr
    · rcases attrRes_length h5 with hr | hr
      · subst hr; simp at hne
      · exact hr
    · rcases attrRes_length h6 with hr | hr
      · subst hr; simp at hne
      · exact hr
    · rcases attrRes_length h7 with hr | hr
      · subst hr; simp at hne
      · exact hr
    · rcases attrRes_length h8 with hr | hr
      · subst hr; simp at hne
      · exact hr

/-- C10: in every submesh produced by `export_to_struct`, each count
field equals the length of its array, and every non-empty attribute
array has exactly the vertex count of the descriptor it was assembled
from. -/
theorem export_counts_consistent (tn : List String) (m : XACMesh) (out : Mesh)
    (h : export_to_struct tn m = .ok out) :
    ∀ s ∈ out.submeshes, countsMatch s ∧
      ∃ sm ∈ m.sub_meshes, sizedBy s sm.num_verts := by
  intro s hs
  rw [export_to_struct] at h
  cases hl : exportLoop tn (attrDataOf m) m.sub_meshes 0 with
  | error e => rw [hl] at h; exact absurd h (by simp [Except.map])
  | ok l =>
    rw [hl] at h
    simp only [Except.map, Except.ok.injEq] at h
    have hsl : s ∈ l := by rw [← h] at hs; exact hs
    obtain ⟨sm, off2, hmem, hok⟩ := exportLoop_mem_elim tn (attrDataOf m)
      m.sub_meshes 0 l hl s hsl
    obtain ⟨hc, hsized⟩ := assembleSubmesh_sized hok
    exact ⟨hc, sm, hmem, hsized⟩

/-- The mesh holding only the `wRow` position layer and one 1-vertex
submesh. -/
def wMesh : XACMesh := ⟨0, 0, 1, 0, 1, 1, 0, [⟨0, 12, 0, 0, wRow⟩], [wSubDesc]⟩

/-- Witness for C10 at the one-submesh mesh `wMesh`. -/
theorem export_counts_consistent_witness :
    countsMatch wSub0 ∧ ∃ sm ∈ wMesh.sub_meshes, sizedBy wSub0 sm.num_verts :=
  export_counts_consistent [] wMesh ⟨1, [wSub0]⟩ (by rfl) wSub0 (by simp)

/-- The eight attribute buffers with their fixed per-row widths: 12 bytes
for the 3-float vectors (positions, normals, bitangents), 16 for
tangents and 128-bit colors, 8 for UVs, 4 for packed colors and raw
vertex numbers. -/
def attrWidths (ad : AttrData) : List (Option (List Nat) × Nat) :=
  [(ad.posD, 12), (ad.normD, 12), (ad.tanD, 16), (ad.uvD, 8),
   (ad.c32D, 4), (ad.orgD, 4), (ad.c128D, 16), (ad.bitD, 12)]

lemma short_buffer_contra {D : List Nat} {base w nv : Nat} {msg : String}
    {r : List (List Nat)} (hw : 0 < w) (hovw : (base + nv) * w < U32)
    (hnv : 0 < nv) (h : readRows D base w nv msg = .ok r)
    (hshort : D.length < (base + nv) * w) : False := by
  obtain ⟨_, hfit⟩ := readRows_ok D base w nv msg hw hovw r h
  have hle := hfit (nv - 1) (by omega)
  have hmul : (base + (nv - 1) + 1) * w = (base + (nv - 1)) * w + w :=
    Nat.succ_mul _ _
  rw [show base + (nv - 1) + 1 = base + nv from by omega] at hmul
  omega

/-- C6: mesh assembly partitions each flat attribute buffer by the
running vertex offset. When assembly succeeds, the submesh at index `k`
was assembled at offset `offFrom 0 sub_meshes k` (the u32 sum of the
preceding vertex counts), and its positions are decoded from exactly the
rows `[offset, offset + num_verts)` of the position buffer at 12 bytes
per row; and whenever any attribute buffer of `attrWidths` is too short
for a submesh's row range, the whole assembly fails with an error. The
`hov` hypothesis rules out u32 overflow of the row offsets. -/
theorem export_partitions_by_offset (tn : List String) (m : XACMesh)
    (hov : ∀ k, k < m.sub_meshes.length →
      (offFrom 0 m.sub_meshes k +
        (m.sub_meshes.getD k defaultSubMeshDesc).num_verts) * 16 < U32) :
    (∀ out, export_to_struct tn m = .ok out →
      ∀ k, k < m.sub_meshes.length →
        ∃ s, assembleSubmesh tn (attrDataOf m) (offFrom 0 m.sub_meshes k)
            (m.sub_meshes.getD k defaultSubMeshDesc) = .ok s ∧
          (hasData s = true → s ∈ out.submeshes) ∧
          ∀ D, (attrDataOf m).posD = some D →
            s.positions =
              (List.range (m.sub_meshes.getD k defaultSubMeshDesc).num_verts).map
                (fun v => negX3 (vec3Of
                  (slice D ((offFrom 0 m.sub_meshes k + v) * 12) 12)))) ∧
    (∀ k, k < m.sub_meshes.length →
      0 < (m.sub_meshes.getD k defaultSubMeshDesc).num_verts →
      ∀ dw ∈ attrWidths (attrDataOf m), ∀ D, dw.1 = some D →
        D.length < (offFrom 0 m.sub_meshes k +
          (m.sub_meshes.getD k defaultSubMeshDesc).num_verts) * dw.2 →
        ∃ e, export_to_struct tn m = .error e) := by
  constructor
  · intro out hout k hk
    rw [export_to_struct] at hout
    cases hl : exportLoop tn (attrDataOf m) m.sub_meshes 0 with
    | error e => rw [hl] at hout; exact absurd hout (by simp [Except.map])
    | ok l =>
      rw [hl] at hout
      simp only [Except.map, Except.ok.injEq] at hout
      obtain ⟨s, ha, hmem⟩ :=
        exportLoop_ok_elim tn (attrDataOf m) m.sub_meshes 0 l hl k hk
      refine ⟨s, ha, fun hd => ?_, fun D hD => ?_⟩
      · rw [← hout]; exact hmem hd
      · obtain ⟨rp, rn, rt, ru, rc, ro, rcc, rb, h1, h2, h3, h4, h5, h6, h7, h8, hs⟩ :=
          assembleSubmesh_ok ha
        rw [hD] at h1
        have hov12 : (offFrom 0 m.sub_meshes k +
            (m.sub_meshes.getD k defaultSubMeshDesc).num_verts) * 12 < U32 := by
          have h16 := hov k hk
          have := Nat.mul_le_mul_left (offFrom 0 m.sub_meshes k +
            (m.sub_meshes.getD k defaultSubMeshDesc).num_verts)
            (show 12 ≤ 16 by omega)
          omega
        obtain ⟨hr, _⟩ := readRows_ok D _ 12 _ _ (by omega) hov12 rp h1
        subst hs
        simp only []
        rw [hr, List.map_map]
        rfl
  · intro k hk hnv dw hdw D hD hshort
    cases hexp : export_to_struct tn m with
    | error e => exact ⟨e, rfl⟩
    | ok out =>
      exfalso
      rw [export_to_struct] at hexp
      cases hl : exportLoop tn (attrDataOf m) m.sub_meshes 0 with
      | error e => rw [hl] at hexp; exact absurd hexp (by simp [Except.map])
      | ok l =>
        obtain ⟨s, ha, _⟩ :=
          exportLoop_ok_elim tn (attrDataOf m) m.sub_meshes 0 l hl k hk
        obtain ⟨rp, rn, rt, ru, rc, ro, rcc, rb, h1, h2, h3, h4, h5, h6, h7, h8, _⟩ :=
          assembleSubmesh_ok ha
        have h16 := hov k hk
        have hw16 : ∀ w : Nat, w ≤ 16 →
            (offFrom 0 m.sub_meshes k +
              (m.sub_meshes.getD k defaultSubMeshDesc).num_verts) * w < U32 := by
          intro w hw
          have := Nat.mul_le_mul_left (offFrom 0 m.sub_meshes k +
            (m.sub_meshes.getD k defaultSubMeshDesc).num_verts) hw
          omega
        simp only [attrWidths, List.mem_cons, List.not_mem_nil, or_false] at hdw
        rcases hdw with rfl | rfl | rfl | rfl | rfl | rfl | rfl | rfl
        · replace hD : (attrDataOf m).posD = some D := hD
          rw [hD] at h1
          exact short_buffer_contra (by omega) (hw16 12 (by omega)) hnv h1 hshort
        · replace hD : (attrDataOf m).normD = some D := hD
          rw [hD] at h2
          exact short_buffer_contra (by omega) (hw16 12 (by omega)) hnv h2 hshort
        · replace hD : (attrDataOf m).tanD = some D := hD
          rw [hD] at h3
          exact short_buffer_contra (by omega) (hw16 16 (by omega)) hnv h3 hshort
        · replace hD : (attrDataOf m).uvD = some D := hD
          rw [hD] at h4
          exact short_buffer_contra (by omega) (hw16 8 (by omega)) hnv h4 hshort
        · replace hD : (attrDataOf m).c32D = some D := hD
          rw [hD] at h5
          exact short_buffer_contra (by omega) (hw16 4 (by omega)) hnv h5 hshort
        · replace hD : (attrDataOf m).orgD = some D := hD
          rw [hD] at h6
          exact short_buffer_contra (by omega) (hw16 4 (by omega)) hnv h6 hshort
        · replace hD : (attrDataOf m).c128D = some D := hD
          rw [hD] at h7
          exact short_buffer_contra (by omega) (hw16 16 (by omega)) hnv h7 hshort
        · replace hD : (attrDataOf m).bitD = some D := hD
          rw [hD] at h8
          exact short_buffer_contra (by omega) (hw16 12 (by omega)) hnv h8 hshort

/-- A position buffer of eight 12-byte rows; row `v` holds twelve copies
of `v + 1`. -/
def wBuf : List Nat := (List.range 8).flatMap fun v => List.replicate 12 (v + 1)

/-- A mesh with one position layer over `wBuf` and two submeshes with
vertex counts 5 and 3. -/
def wMesh53 : XACMesh :=
  ⟨0, 0, 8, 0, 2, 1, 0, [⟨0, 12, 0, 0, wBuf⟩],
   [⟨0, 5, 0, 0, [], []⟩, ⟨0, 3, 0, 0, [], []⟩]⟩

/-- Witness for C6 at `wMesh53`: submesh 2's positions come from rows
`[5, 8)` of the shared buffer. -/
theorem export_partitions_by_offset_witness :
    (∀ out, export_to_struct [] wMesh53 = .ok out →
      ∀ k, k < wMesh53.sub_meshes.length →
        ∃ s, assembleSubmesh [] (attrDataOf wMesh53) (offFrom 0 wMesh53.sub_meshes k)
            (wMesh53.sub_meshes.getD k defaultSubMeshDesc) = .ok s ∧
          (hasData s = true → s ∈ out.submeshes) ∧
          ∀ D, (attrDataOf wMesh53).posD = some D →
            s.positions =
              (List.range (wMesh53.sub_meshes.getD k defaultSubMeshDesc).num_verts).map
                (fun v => negX3 (vec3Of
                  (slice D ((offFrom 0 wMesh53.sub_meshes k + v) * 12) 12)))) ∧
    (∀ k, k < wMesh53.sub_meshes.length →
      0 < (wMesh53.sub_meshes.getD k defaultSubMeshDesc).num_verts →
      ∀ dw ∈ attrWidths (attrDataOf wMesh53), ∀ D, dw.1 = some D →
        D.length < (offFrom 0 wMesh53.sub_meshes k +
          (wMesh53.sub_meshes.getD k defaultSubMeshDesc).num_verts) * dw.2 →
        ∃ e, export_to_struct [] wMesh53 = .error e) :=
  export_partitions_by_offset [] wMesh53 (by decide)

end Toslib
